import Mathlib

/-! Verification of the quail discontinuous-Galerkin solver's numerical
fluxes, boundary conditions and time steppers, translated from the
repository sources (`quail/physics/euler/functions.py`,
`src/numerics/timestepping/stepper.py`).  Real arithmetic models the
floating-point arithmetic of the code; batched numpy operations are
modelled pointwise per quadrature point, or over lists of points where
whole-batch semantics matter. -/

namespace Quail

noncomputable section

open Real

/-- A 1D Euler conserved state at one quadrature point:
`(rho, rhou, rhoE)` = (density, momentum, total energy). -/

abbrev St : Type := ℝ × ℝ × ℝ

/-- Density component of a 1D state. -/
def St.rho (U : St) : ℝ := U.1

/-- Momentum component of a 1D state. -/
def St.mom (U : St) : ℝ := U.2.1

/-- Total-energy component of a 1D state. -/
def St.en (U : St) : ℝ := U.2.2

/-- Velocity `u = rhou/rho` (`physics.velocity` after `set_thermo_state`). -/
def vel (U : St) : ℝ := U.mom / U.rho

/-- Kinetic energy per volume, `0.5*rhou^2/rho`. -/
def kinE (U : St) : ℝ := U.mom ^ 2 / (2 * U.rho)

/-- Modelled from the spec: the calorically perfect gas pressure
(`quail/physics/base/thermo.py` is not under `src/`):
`p = (gamma - 1)*(rhoE - 0.5*rhou^2/rho)`. -/
def pres (γ : ℝ) (U : St) : ℝ := (γ - 1) * (U.en - kinE U)

/-- Modelled from the spec: speed of sound `c = sqrt(gamma*p/rho)` of the
calorically perfect gas model (`thermo.c`). -/
def snd (γ : ℝ) (U : St) : ℝ := Real.sqrt (γ * pres γ U / U.rho)

/-- Modelled from the spec: specific internal energy
`e = (rhoE - 0.5*rhou^2/rho)/rho` (`thermo.e`). -/
def inte (U : St) : ℝ := (U.en - kinE U) / U.rho

/-- Modelled from the spec: total enthalpy `H = (rhoE + p)/rho`
(`physics.compute_variable("TotalEnthalpy", Uq)`). -/
def enth (γ : ℝ) (U : St) : ℝ := (U.en + pres γ U) / U.rho

/-- Modelled from the spec: `physics.get_conv_flux_projected(Uq, n_hat)`
(`quail/physics/euler/euler.py` is not under `src/`; the interior flux is
characterized by `test/component/physics/euler/test_euler.py`):
the analytic interior flux `F(U) = (rhou, rhou*u + p, (rhoE + p)*u)`
projected onto the (scalar, 1D) normal `nh`. -/
def fluxProj (γ : ℝ) (U : St) (nh : ℝ) : St :=
  (nh * U.mom, nh * (U.mom * vel U + pres γ U), nh * ((U.en + pres γ U) * vel U))

/-- Source: `LaxFriedrichs.compute_flux` (src/quail/physics/euler/functions.py,
lines 1145-1166), pointwise at one quadrature point in 1D.  The in-place
maximum over `idx = aR > aL` is the pointwise `max`. -/
def lfFlux (γ : ℝ) (UL UR : St) (n : ℝ) : St :=
  let nmag : ℝ := |n|
  let nh : ℝ := n / nmag
  let FqL := fluxProj γ UL nh
  let aL := snd γ UL + |vel UL|
  let FqR := fluxProj γ UR nh
  let aR := snd γ UR + |vel UR|
  let dU := UR - UL
  let a := max aL aR
  (0.5 * nmag) • (FqL + FqR - a • dU)

/-- The `NotPhysicalError` raised by `Roe1D.compute_flux`
(`quail/errors.NotPhysicalError`); the constructor records which of the
three raise sites fired (distinguished in the code by their messages
"rhoL is negative", "rhoR is negative", "Speed of sound is ..."). -/
inductive PhysErr : Type
| rhoLNeg : PhysErr
| rhoRNeg : PhysErr
| soundSpeed : PhysErr
deriving DecidableEq

/-- Source: `Roe1D.rotate_coord_sys` (functions.py lines 1219-1241): multiply the
momentum component by the (scalar, 1D) unit normal. -/
def rotSt (U : St) (nh : ℝ) : St := (U.rho, nh * U.mom, U.en)

/-- Roe-averaged density `sqrt(rhoL)*sqrt(rhoR)`
(`Roe1D.roe_average_state`, functions.py lines 1268-1319). -/
def roeDen (UL UR : St) : ℝ := Real.sqrt UL.rho * Real.sqrt UR.rho

/-- Roe-averaged velocity, square-root-of-density weighted
(`Roe1D.roe_average_state`). -/
def roeVel (UL UR : St) : ℝ :=
  (Real.sqrt UL.rho * vel UL + Real.sqrt UR.rho * vel UR) *
    (1 / (Real.sqrt UL.rho + Real.sqrt UR.rho))

/-- Roe-averaged total enthalpy (`Roe1D.roe_average_state`). -/
def roeEnth (γ : ℝ) (UL UR : St) : ℝ :=
  (Real.sqrt UL.rho * enth γ UL + Real.sqrt UR.rho * enth γ UR) *
    (1 / (Real.sqrt UL.rho + Real.sqrt UR.rho))

/-- The sound-speed squared derived from the Roe-averaged state,
`c2 = (gamma-1)*(HRoe - 0.5*velRoe^2)` (functions.py line 1504). -/
def roeC2 (γ : ℝ) (UL UR : St) : ℝ :=
  (γ - 1) * (roeEnth γ UL UR - 0.5 * (roeVel UL UR) ^ 2)

/-- The Roe dissipation vector `R · (|evals| * alphas)` of
`Roe1D.get_alphas` / `get_eigenvalues` / `get_right_eigenvectors` and the
`einsum` of line 1534, evaluated pointwise for the three 1D state
variables (arguments: `c2`, `c`, Roe velocity `v`, Roe enthalpy `H`, Roe
density `rr`, and the jumps `dp`, `dv`, `dr`). -/
def roeDiss (c2 c v H rr dp dv dr : ℝ) : St :=
  let a0 := 0.5 / c2 * (dp - c * rr * dv)
  let a1 := dr - dp / c2
  let a2 := 0.5 / c2 * (dp + c * rr * dv)
  let l0 := v - c
  let l2 := v + c
  ( |l0| * a0 + |v| * a1 + |l2| * a2,
    l0 * |l0| * a0 + v * |v| * a1 + l2 * |l2| * a2,
    (H - v * c) * |l0| * a0 + 0.5 * v ^ 2 * |v| * a1 + (H + v * c) * |l2| * a2 )

/-- Source: `Roe1D.compute_flux` (functions.py lines 1451-1545), pointwise at one
quadrature point in 1D with a single species (`Y = 1`, so the species
jump sum `drho` is `rhoR - rhoL`).  Rotation multiplies the momentum by
the unit normal; the momentum component of the dissipation is divided by
the unit normal on un-rotation; errors model the three
`NotPhysicalError` raise sites in source order. -/
def roeFlux (γ : ℝ) (ULs URs : St) (n : ℝ) : Except PhysErr St :=
  let nmag : ℝ := |n|
  let nh : ℝ := n / nmag
  let UL := rotSt ULs nh
  let UR := rotSt URs nh
  if UL.rho ≤ 0 then .error .rhoLNeg
  else if UR.rho ≤ 0 then .error .rhoRNeg
  else if roeC2 γ UL UR ≤ 0 then .error .soundSpeed
  else
    let c := Real.sqrt (roeC2 γ UL UR)
    let dp := pres γ UR - pres γ UL
    let dv := vel UR - vel UL
    let dr := UR.rho - UL.rho
    let D := roeDiss (roeC2 γ UL UR) c (roeVel UL UR) (roeEnth γ UL UR)
      (roeDen UL UR) dp dv dr
    let FRoe : St := (D.1, D.2.1 / nh, D.2.2)
    let FL := fluxProj γ ULs nh
    let FR := fluxProj γ URs nh
    .ok ((0.5 * nmag) • (FL + FR - FRoe))

/-- Helper: the momentum sign flip `(rho, rhou, rhoE) -> (rho, -rhou, rhoE)`;
rotating by `-nh` equals rotating by `nh` then flipping. -/
def flipMom (U : St) : St := (U.rho, -U.mom, U.en)

/-- The PVRS `q` factor of `HLLC.get_wave_speeds_pvrs` (functions.py lines
1653-1673): `sqrt(1 + (g+1)/(2g)*(p_pvrs/pk - 1))` where `p_pvrs > pk`,
else `1`. -/
def pvrsQ (g pk pp : ℝ) : ℝ :=
  if pp > pk then Real.sqrt (1 + (g + 1) / (2 * g) * (pp / pk - 1)) else 1

/-- Source: `HLLC.get_wave_speeds_roe` (functions.py lines 1635-1651): Roe-type
left/right wave-speed estimates. -/
def waveSpeedsRoe (rhoL rhoR aL aR uL uR : ℝ) : ℝ × ℝ :=
  let sL := Real.sqrt rhoL
  let sR := Real.sqrt rhoR
  let denom := 1 / (sL + sR)
  let uRoe := (sL * uL + sR * uR) * denom
  let aRoe := Real.sqrt ((sL * aL ^ 2 + sR * aR ^ 2) * denom +
    0.5 * (sL * sR * (uR - uL) ^ 2) * denom ^ 2)
  (uRoe - aRoe, uRoe + aRoe)

/-- Source: `HLLC.get_wave_speeds_pvrs` (functions.py lines 1653-1673):
primitive-variable Riemann solver wave-speed estimates (with `gL = gR = g`
for the single calorically perfect gas). -/
def waveSpeedsPvrs (rhoL rhoR aL aR pL pR uL uR g : ℝ) : ℝ × ℝ :=
  let rhoAvg := 0.5 * (rhoL + rhoR)
  let aAvg := 0.5 * (aL + aR)
  let pPvrs := 0.5 * (pL + pR - (uR - uL) * rhoAvg * aAvg)
  (uL - aL * pvrsQ g pL pPvrs, uR + aR * pvrsQ g pR pPvrs)

/-- Source: `HLLC.get_wave_speeds` (functions.py lines 1620-1633): start from
`(uL-aL, uR+aR)` and widen by the minimum/maximum over the two
estimators. -/
def waveSpeeds (rhoL rhoR aL aR pL pR uL uR g : ℝ) : ℝ × ℝ :=
  let r := waveSpeedsRoe rhoL rhoR aL aR uL uR
  let p := waveSpeedsPvrs rhoL rhoR aL aR pL pR uL uR g
  (min (min (uL - aL) r.1) p.1, max (max (uR + aR) r.2) p.2)

/-- The star-region ("inside the fan") flux reconstruction of
`HLLC.compute_flux` (functions.py lines 1712-1754), for the side `k`
already selected by the sign of the contact speed `Sstar`. -/
def hllcStar (γ : ℝ) (Uk : St) (nh Sk pk uk u2k ek Sstar alphak : ℝ) : St :=
  let rhokstar := alphak / (Sk - Sstar)
  let C := (Sstar - uk) * (Sstar + pk / alphak)
  let vk := vel Uk + nh * (Sstar - vel Uk * nh)
  let Ustar : St := (rhokstar, rhokstar * vk, rhokstar * (ek + 0.5 * u2k + C))
  fluxProj γ Uk nh + Sk • (Ustar - Uk)

/-- Source: `HLLC.compute_flux` (functions.py lines 1675-1756), pointwise at one
quadrature point in 1D with a single species (`Y = 1`).  The batched mask
assignments select, per point: the right flux where `SR <= 0`, the
star-region flux where `SL < 0 < SR` (right star state where the contact
speed `Sstar < 0`, else left), and the left flux otherwise. -/
def hllcFlux (γ : ℝ) (ULs URs : St) (n : ℝ) : St :=
  let nmag : ℝ := |n|
  let nh : ℝ := n / nmag
  let uL := vel ULs * nh
  let uR := vel URs * nh
  let SLSR := waveSpeeds ULs.rho URs.rho (snd γ ULs) (snd γ URs)
    (pres γ ULs) (pres γ URs) uL uR γ
  let SL := SLSR.1
  let SR := SLSR.2
  if SR ≤ 0 then nmag • fluxProj γ URs nh
  else if SL < 0 then
    let alphaL := ULs.rho * (SL - uL)
    let alphaR := URs.rho * (SR - uR)
    let Sstar := (pres γ URs - pres γ ULs + uL * alphaL - uR * alphaR) /
      (alphaL - alphaR)
    if Sstar < 0 then
      nmag • hllcStar γ URs nh SR (pres γ URs) uR ((vel URs) ^ 2) (inte URs)
        Sstar alphaR
    else
      nmag • hllcStar γ ULs nh SL (pres γ ULs) uL ((vel ULs) ^ 2) (inte ULs)
        Sstar alphaL
  else nmag • fluxProj γ ULs nh

/-! ### 2D Euler states, for the Lax-Friedrichs flux formula (C4) and the
slip-wall boundary condition (C8). -/

/-- A 2D vector (normal or velocity). -/
abbrev Vec2 : Type := ℝ × ℝ

/-- Euclidean norm of a 2D vector (`np.linalg.norm(..., axis=2)`). -/
def vnorm (v : Vec2) : ℝ := Real.sqrt (v.1 ^ 2 + v.2 ^ 2)

/-- Dot product of 2D vectors (`np.sum(a*b, axis=2)`). -/
def dot (a b : Vec2) : ℝ := a.1 * b.1 + a.2 * b.2

/-- A 2D Euler conserved state at one quadrature point:
`(rho, (rhou, rhov), rhoE)`. -/
abbrev St4 : Type := ℝ × Vec2 × ℝ

/-- Density component of a 2D state. -/
def St4.rho (U : St4) : ℝ := U.1

/-- Momentum vector of a 2D state. -/
def St4.mom (U : St4) : Vec2 := U.2.1

/-- Total-energy component of a 2D state. -/
def St4.en (U : St4) : ℝ := U.2.2

/-- Velocity vector of a 2D state (`physics.velocity`). -/
def vel2 (U : St4) : Vec2 := (U.mom.1 / U.rho, U.mom.2 / U.rho)

/-- Modelled from the spec: 2D calorically perfect gas pressure
`p = (gamma-1)*(rhoE - 0.5*|rhouvec|^2/rho)`. -/
def pres2 (γ : ℝ) (U : St4) : ℝ :=
  (γ - 1) * (U.en - (U.mom.1 ^ 2 + U.mom.2 ^ 2) / (2 * U.rho))

/-- Modelled from the spec: 2D speed of sound `c = sqrt(gamma*p/rho)`. -/
def snd2 (γ : ℝ) (U : St4) : ℝ := Real.sqrt (γ * pres2 γ U / U.rho)

/-- Modelled from the spec: `physics.get_conv_flux_projected` in 2D
(per `test_convective_flux_2D` in the test suite): the analytic interior
flux tensor contracted with the unit normal `nh`. -/
def fluxProj2 (γ : ℝ) (U : St4) (nh : Vec2) : St4 :=
  let un := dot (vel2 U) nh
  (U.rho * un,
    (U.rho * (vel2 U).1 * un + pres2 γ U * nh.1,
     U.rho * (vel2 U).2 * un + pres2 γ U * nh.2),
    (U.en + pres2 γ U) * un)

/-- Modelled from the spec: the x-direction column of the 2D interior
flux tensor `(rho*u, (rho*u*u + p, rho*v*u), (rhoE+p)*u)`, exactly as the
reference values of `test_convective_flux_2D`. -/
def fluxX (γ : ℝ) (U : St4) : St4 :=
  (U.rho * (vel2 U).1,
    (U.rho * (vel2 U).1 * (vel2 U).1 + pres2 γ U,
     U.rho * (vel2 U).2 * (vel2 U).1),
    (U.en + pres2 γ U) * (vel2 U).1)

/-- Modelled from the spec: the y-direction column of the 2D interior
flux tensor `(rho*v, (rho*u*v, rho*v*v + p), (rhoE+p)*v)`. -/
def fluxY (γ : ℝ) (U : St4) : St4 :=
  (U.rho * (vel2 U).2,
    (U.rho * (vel2 U).1 * (vel2 U).2,
     U.rho * (vel2 U).2 * (vel2 U).2 + pres2 γ U),
    (U.en + pres2 γ U) * (vel2 U).2)

/-- Source: `LaxFriedrichs.compute_flux` (functions.py lines 1145-1166), pointwise
at one quadrature point in 2D.  The per-side wave speed is
`thermo.c + np.linalg.norm(uvec)`: sound speed plus the FULL velocity
magnitude. -/
def lfFlux2 (γ : ℝ) (UL UR : St4) (nv : Vec2) : St4 :=
  let nmag := vnorm nv
  let nh : Vec2 := (nv.1 / nmag, nv.2 / nmag)
  let FqL := fluxProj2 γ UL nh
  let aL := snd2 γ UL + vnorm (vel2 UL)
  let FqR := fluxProj2 γ UR nh
  let aR := snd2 γ UR + vnorm (vel2 UR)
  let dU := UR - UL
  (0.5 * nmag) • (FqL + FqR - (max aL aR) • dU)

/-- The formula claimed by C4, with the wave speed computed from the
NORMAL velocity magnitude: `alpha` = max over the two sides of
(sound speed + `|u . n_hat|`). -/
def lfClaimFormula (γ : ℝ) (UL UR : St4) (nv : Vec2) : St4 :=
  let nmag := vnorm nv
  let nh : Vec2 := (nv.1 / nmag, nv.2 / nmag)
  let aL := snd2 γ UL + |dot (vel2 UL) nh|
  let aR := snd2 γ UR + |dot (vel2 UR) nh|
  (0.5 * nmag) •
    (fluxProj2 γ UL nh + fluxProj2 γ UR nh - (max aL aR) • (UR - UL))

/-- The Lax-Friedrichs flux formula as amended:
`0.5*|n|*(F(L) + F(R) - alpha*(U_R - U_L))` with `alpha` the maximum over
the two sides of (sound speed + FULL velocity magnitude), `F` the full
interior flux tensor contracted with the unit normal. -/
def lfSpecFormula (γ : ℝ) (UL UR : St4) (nv : Vec2) : St4 :=
  let nh : Vec2 := (nv.1 / vnorm nv, nv.2 / vnorm nv)
  let FL := nh.1 • fluxX γ UL + nh.2 • fluxY γ UL
  let FR := nh.1 • fluxX γ UR + nh.2 • fluxY γ UR
  let α := max (snd2 γ UL + vnorm (vel2 UL)) (snd2 γ UR + vnorm (vel2 UR))
  (0.5 * vnorm nv) • (FL + FR - α • (UR - UL))

/-- Source: `SlipWall.get_boundary_state` (functions.py lines 697-714), pointwise
at one quadrature point in 2D: remove the momentum contribution in the
normal direction, `UqB[srhou] -= (rhou . n_hat) n_hat`. -/
def slipWall (U : St4) (nv : Vec2) : St4 :=
  let nh : Vec2 := (nv.1 / vnorm nv, nv.2 / vnorm nv)
  let rhoveln := dot U.mom nh
  (U.rho, (U.mom.1 - rhoveln * nh.1, U.mom.2 - rhoveln * nh.2), U.en)

/-! ### Pressure outlet boundary condition (C9), over a batch (list) of 1D
quadrature points, because its branching uses whole-batch `np.any` tests. -/

/-- The subsonic outlet boundary state at one 1D quadrature point
(functions.py lines 804-818): entropy-matched density
`rhoI*(pB/pI)^(1/gamma)`, velocity from the interior Riemann invariant
`JI = velnI + 2*cI/(gamma-1)`, energy consistent with the prescribed
static pressure `pB`. -/
def outletPoint (γ pB : ℝ) (U : St) (n : ℝ) : St :=
  let nh := n / |n|
  let velnI := vel U * nh
  let pI := pres γ U
  let cI := snd γ U
  let JI := velnI + 2 * cI / (γ - 1)
  let veltI := vel U - velnI * nh
  let rhoB := U.rho * (pB / pI) ^ (1 / γ : ℝ)
  let cB := Real.sqrt (γ * pB / rhoB)
  let velB := (JI - 2 * cB / (γ - 1)) * nh + veltI
  (rhoB, rhoB * velB, pB / (γ - 1) + 0.5 * (rhoB * velB ^ 2))

/-- Source: `PressureOutlet.get_boundary_state` (functions.py lines 761-818) over a
batch of 1D points `(state, normal)`.  Both the negative-pressure check
and the supersonic check are whole-batch `np.any` tests: if ANY point has
interior normal Mach number `>= 1`, the unmodified interior copy `UqB` is
returned at EVERY point. -/
def pressureOutlet (γ pB : ℝ) (pts : List (St × ℝ)) : Except Unit (List St) :=
  if pts.any (fun q => decide (pres γ q.1 < 0)) then .error ()
  else if pts.any (fun q => decide (1 ≤ vel q.1 * (q.2 / |q.2|) / snd γ q.1))
    then .ok (pts.map (fun q => q.1))
  else .ok (pts.map (fun q => outletPoint γ pB q.1 q.2))

open Classical in
/-- The batch behaviour spelled out with plain quantifiers: error when
some interior pressure is negative; whole-batch extrapolation when some
point is supersonic; otherwise the pointwise subsonic construction. -/
def pressureOutletSpec (γ pB : ℝ) (pts : List (St × ℝ)) : Except Unit (List St) :=
  if ∃ q ∈ pts, pres γ q.1 < 0 then .error ()
  else if ∃ q ∈ pts, 1 ≤ vel q.1 * (q.2 / |q.2|) / snd γ q.1 then
    .ok (pts.map (fun q => q.1))
  else .ok (pts.map (fun q => outletPoint γ pB q.1 q.2))

/-- The behaviour C9 claims: the supersonic/subsonic selection made
POINTWISE per quadrature point. -/
def pressureOutletClaim (γ pB : ℝ) (pts : List (St × ℝ)) :
    Except Unit (List St) :=
  if pts.any (fun q => decide (pres γ q.1 < 0)) then .error ()
  else .ok (pts.map (fun q =>
    if 1 ≤ vel q.1 * (q.2 / |q.2|) / snd γ q.1 then q.1
    else outletPoint γ pB q.1 q.2))

/-! ### A reference/heap model of the boundary-condition calls (C10):
array values live at numbered references; `get_boundary_state` reads the
interior array `UqI`, allocates the fresh copy `UqB = UqI.copy()`, and
writes only to the copy. -/

/-- A heap of array values: contents plus the next fresh reference. -/
structure Heap (α : Type) : Type where
  mem : Nat → α
  next : Nat

/-- Read a reference. -/
def Heap.read (h : Heap α) (i : Nat) : α := h.mem i

/-- Overwrite a reference in place (a numpy slice assignment). -/
def Heap.write (h : Heap α) (i : Nat) (v : α) : Heap α :=
  ⟨fun j => if j = i then v else h.mem j, h.next⟩

/-- Allocate a fresh array holding `v` (`ndarray.copy()` when `v` is a
read value); returns the new heap and the fresh reference. -/
def Heap.alloc (h : Heap α) (v : α) : Heap α × Nat :=
  (⟨fun j => if j = h.next then v else h.mem j, h.next + 1⟩, h.next)

/-- Source: `SlipWall.get_boundary_state` as a heap program (functions.py lines
697-714): read `UqI`, allocate `UqB = UqI.copy()`, subtract the normal
momentum on `UqB` (pointwise `slipWall`), return the reference to `UqB`. -/
def slipWallH (h : Heap (List St4)) (iU : Nat) (ns : List Vec2) :
    Heap (List St4) × Nat :=
  let UqI := h.read iU
  let p := h.alloc UqI
  (p.1.write p.2 (List.zipWith slipWall UqI ns), p.2)

/-- Source: `SlipWallRiemann.get_boundary_state`, pointwise (functions.py lines
717-734): subtract TWICE the normal momentum (mirror state). -/
def slipWallRiemannPoint (U : St4) (nv : Vec2) : St4 :=
  let nh : Vec2 := (nv.1 / vnorm nv, nv.2 / vnorm nv)
  let rhoveln := dot U.mom nh
  (U.rho, (U.mom.1 - 2 * rhoveln * nh.1, U.mom.2 - 2 * rhoveln * nh.2), U.en)

/-- Source: `SlipWallRiemann.get_boundary_state` as a heap program. -/
def slipWallRiemannH (h : Heap (List St4)) (iU : Nat) (ns : List Vec2) :
    Heap (List St4) × Nat :=
  let UqI := h.read iU
  let p := h.alloc UqI
  (p.1.write p.2 (List.zipWith slipWallRiemannPoint UqI ns), p.2)

/-- Source: `PressureOutlet.get_boundary_state` as a heap program (functions.py
lines 761-818): the copy is allocated before the negative-pressure check;
on the supersonic branch the unwritten copy is returned; the three slice
writes of the subsonic branch are collapsed into one write of the final
pointwise values, still targeting only the copy. -/
def pressureOutletH (γ pB : ℝ) (h : Heap (List St)) (iU : Nat)
    (ns : List ℝ) : Except Unit (Heap (List St) × Nat) :=
  let UqI := h.read iU
  let p := h.alloc UqI
  if UqI.any (fun U => decide (pres γ U < 0)) then .error ()
  else if (List.zip UqI ns).any
      (fun q => decide (1 ≤ vel q.1 * (q.2 / |q.2|) / snd γ q.1)) then
    .ok (p.1, p.2)
  else
    .ok (p.1.write p.2
      (List.zipWith (fun U n => outletPoint γ pB U n) UqI ns), p.2)

/-- Modelled from the spec: the adiabatic-wall boundary state at one 1D
point for the calorically perfect gas (`thermo.set_state_from_rhoi_T` is
not under `src/`): interior density, zero momentum, energy
`rho * e(T_interior)` with `e(T) = R*T/(gamma-1)` and
`T_interior = p/(rho*R)`. -/
def adiabaticWallPoint (γ R : ℝ) (U : St) : St :=
  let TI := pres γ U / (U.rho * R)
  (U.rho, 0, U.rho * (R * TI / (γ - 1)))

/-- Source: `AdiabaticWall.get_boundary_state` as a heap program (functions.py
lines 821-850): copy first, then the negative-density and
negative-temperature checks, then writes to the copy only. -/
def adiabaticWallH (γ R : ℝ) (h : Heap (List St)) (iU : Nat) :
    Except Unit (Heap (List St) × Nat) :=
  let UqI := h.read iU
  let p := h.alloc UqI
  if UqI.any (fun U => decide (St.rho U < 0)) then .error ()
  else if UqI.any (fun U => decide (pres γ U / (U.rho * R) < 0)) then
    .error ()
  else .ok (p.1.write p.2 (UqI.map (adiabaticWallPoint γ R)), p.2)

/-- Modelled from the spec: `IsothermalWall.set_Y_T_p` at one 1D point:
wall pressure = interior pressure, density from the ideal-gas law at the
wall temperature, zero momentum, energy `rhoB*e(Twall)`. -/
def isoWallPointYTp (γ R Twall : ℝ) (U : St) : St :=
  let rhoB := pres γ U / (R * Twall)
  (rhoB, 0, rhoB * (R * Twall / (γ - 1)))

/-- Modelled from the spec: `IsothermalWall.set_rhoE` at one 1D point:
density `rhoE/e(Twall)` (so that `rhoE = rho*e`), zero momentum, energy
kept from the interior. -/
def isoWallPointRhoE (γ R Twall : ℝ) (U : St) : St :=
  (U.en / (R * Twall / (γ - 1)), 0, U.en)

/-- Modelled from the spec: `IsothermalWall.set_rho` at one 1D point:
density kept from the interior, zero momentum, energy `rho*e(Twall)`. -/
def isoWallPointRho (γ R Twall : ℝ) (U : St) : St :=
  (U.rho, 0, U.rho * (R * Twall / (γ - 1)))

/-- Source: `IsothermalWall.get_boundary_state` as a heap program (functions.py
lines 853-952), dispatching on the `method` attribute (1 = `set_rhoE`,
2 = `set_rho`, otherwise `set_Y_T_p`); each method copies first, checks,
then writes to the copy only. -/
def isothermalWallH (γ R Twall : ℝ) (method : ℕ) (h : Heap (List St))
    (iU : Nat) : Except Unit (Heap (List St) × Nat) :=
  let UqI := h.read iU
  let p := h.alloc UqI
  if method = 1 then
    if UqI.any (fun U => decide (St.rho U < 0)) then .error ()
    else .ok (p.1.write p.2 (UqI.map (isoWallPointRhoE γ R Twall)), p.2)
  else if method = 2 then
    if UqI.any (fun U => decide (St.rho U < 0)) then .error ()
    else .ok (p.1.write p.2 (UqI.map (isoWallPointRho γ R Twall)), p.2)
  else
    if UqI.any (fun U => decide (pres γ U < 0)) then .error ()
    else .ok (p.1.write p.2 (UqI.map (isoWallPointYTp γ R Twall)), p.2)

/-- Modelled from the spec: `IsothermalWallRiemann.get_boundary_state` at
one 1D point: flipped momentum, energy `rho*e(Twall) + 0.5*rhou^2/rho`. -/
def isoWallRiemannPoint (γ R Twall : ℝ) (U : St) : St :=
  (U.rho, -U.mom, U.rho * (R * Twall / (γ - 1)) + 0.5 * (U.mom * U.mom) / U.rho)

/-- Source: `IsothermalWallRiemann.get_boundary_state` as a heap program
(functions.py lines 955-995). -/
def isothermalWallRiemannH (γ R Twall : ℝ) (h : Heap (List St)) (iU : Nat) :
    Except Unit (Heap (List St) × Nat) :=
  let UqI := h.read iU
  let p := h.alloc UqI
  if UqI.any (fun U => decide (St.rho U < 0)) then .error ()
  else .ok (p.1.write p.2 (UqI.map (isoWallRiemannPoint γ R Twall)), p.2)

/-! ### The time-stepping schemes (C5, C6, C7), from
`src/numerics/timestepping/stepper.py`, as state-passing programs over an
abstract solver context; each call also logs an event trace recording the
residual evaluations (with the switch settings in force), the solution
array updates and the limiter applications. -/

/-- The solution arrays a stepper touches: `physics.U` (also ADER's `W`),
the Runge-Kutta stage state `Utemp`, and ADER's predictor
`physics.U_pred`. -/
inductive ArrId : Type
| U : ArrId
| Utemp : ArrId
| Upred : ArrId
deriving DecidableEq

/-- Events logged by a `take_time_step` call: a residual evaluation
(recording which array it reads and the switches/balance in force), a
limiter application, a solution-array update, and an implicit ODE
sub-step call. -/
inductive Ev (α : Type) : Type
| res (source conv : Bool) (balance : Option α) (arr : ArrId) : Ev α
| lim (arr : ArrId) : Ev α
| upd (arr : ArrId) : Ev α
| impl (source conv : Bool) (balance : Option α) (dt : ℝ) : Ev α

/-- The solver state a stepper reads and mutates: the per-step switches
`params["SourceSwitch"]`/`params["ConvFluxSwitch"]`, the time, the
`balance_const` (None unless set by Simpler), the arrays `U`, `U_pred`,
the stepper's residual `R` and low-storage increment `dU`, and the logged
trace. -/
structure SimState (α : Type) : Type where
  source : Bool
  conv : Bool
  time : ℝ
  balance : Option α
  U : α
  Upred : α
  R : α
  dU : α
  trace : List (Ev α)

/-- The solver operations a stepper invokes.  `getResidual` takes the two
switches, the balance constant, the time, the state evaluated and the
residual array.  `implicitStep` is `Modelled from the spec:` the implicit
ODE solvers (BDF1/Trapezoidal in `numerics/timestepping/ode.py`, not
under `src/`): an opaque map to the updated state and residual.
`predictor` is `Modelled from the spec:` `calculate_predictor_step` of
the ADERDG solver (not under `src/`): an opaque update of `U_pred`. -/
structure StepCtx (α : Type) : Type where
  getResidual : Bool → Bool → Option α → ℝ → α → α → α
  multInvMass : ℝ → α → α
  applyLimiter : α → α
  predictor : ℝ → α → α → α
  implicitStep : ℝ → Bool → Bool → Option α → ℝ → α → α × α

/-- Source: `R = solver.get_residual(X, R)`: evaluate under the current switches,
balance constant and time, store into the stepper's `R`, log the read of
array `arr`. -/
def doRes {α : Type} (ctx : StepCtx α) (arr : ArrId) (X : α)
    (s : SimState α) : SimState α :=
  let Rn := ctx.getResidual s.source s.conv s.balance s.time X s.R
  { s with R := Rn, trace := s.trace ++ [Ev.res s.source s.conv s.balance arr] }

/-- Source: `FE.take_time_step` (stepper.py lines 96-115). -/
def feStep {α : Type} [AddCommGroup α] [Module ℝ α] (ctx : StepCtx α)
    (dt : ℝ) (s : SimState α) : SimState α × α :=
  let s1 := doRes ctx .U s.U s
  let dU := ctx.multInvMass dt s1.R
  let s2 := { s1 with U := s1.U + dU, trace := s1.trace ++ [Ev.upd .U] }
  let s3 := { s2 with
    U := ctx.applyLimiter s2.U,
    trace := s2.trace ++ [Ev.lim .U] }
  (s3, s3.R)

/-- Source: `RK4.take_time_step` (stepper.py lines 118-159): four stages; the
stage states `Utemp` are local values, each limited right after its
update; `solver.time` advances by `dt/2` before the second and fourth
stages; the final update of `U` is limited before return. -/
def rk4Step {α : Type} [AddCommGroup α] [Module ℝ α] (ctx : StepCtx α)
    (dt : ℝ) (s : SimState α) : SimState α × α :=
  let s1 := doRes ctx .U s.U s
  let dU1 := ctx.multInvMass dt s1.R
  let s1a := { s1 with trace := s1.trace ++ [Ev.upd .Utemp] }
  let Ut1 := ctx.applyLimiter (s1a.U + (0.5 : ℝ) • dU1)
  let s1b := { s1a with trace := s1a.trace ++ [Ev.lim .Utemp] }
  let s2 := doRes ctx .Utemp Ut1 { s1b with time := s1b.time + dt / 2 }
  let dU2 := ctx.multInvMass dt s2.R
  let s2a := { s2 with trace := s2.trace ++ [Ev.upd .Utemp] }
  let Ut2 := ctx.applyLimiter (s2a.U + (0.5 : ℝ) • dU2)
  let s2b := { s2a with trace := s2a.trace ++ [Ev.lim .Utemp] }
  let s3 := doRes ctx .Utemp Ut2 s2b
  let dU3 := ctx.multInvMass dt s3.R
  let s3a := { s3 with trace := s3.trace ++ [Ev.upd .Utemp] }
  let Ut3 := ctx.applyLimiter (s3a.U + dU3)
  let s3b := { s3a with trace := s3a.trace ++ [Ev.lim .Utemp] }
  let s4 := doRes ctx .Utemp Ut3 { s3b with time := s3b.time + dt / 2 }
  let dU4 := ctx.multInvMass dt s4.R
  let dU := (1 / 6 : ℝ) • (dU1 + (2 : ℝ) • dU2 + (2 : ℝ) • dU3 + dU4)
  let s4a := { s4 with U := s4.U + dU, trace := s4.trace ++ [Ev.upd .U] }
  let s4b := { s4a with
    U := ctx.applyLimiter s4a.U,
    trace := s4a.trace ++ [Ev.lim .U] }
  (s4b, s4b.R)

/-- The LSRK4 `rk4a` coefficients (stepper.py lines 191-194). -/
def rk4aCoef : Fin 5 → ℝ :=
  ![0, -567301805773 / 1357537059087, -2404267990393 / 2016746695238,
    -3550918686646 / 2091501179385, -1275806237668 / 842570457699]

/-- The LSRK4 `rk4b` coefficients (stepper.py lines 195-199). -/
def rk4bCoef : Fin 5 → ℝ :=
  ![1432997174477 / 9575080441755, 5161836677717 / 13612068292357,
    1720146321549 / 2090206949498, 3134564353537 / 4481467310338,
    2277821191437 / 14882151754819]

/-- The LSRK4 `rk4c` coefficients (stepper.py lines 200-203). -/
def rk4cCoef : Fin 5 → ℝ :=
  ![0, 1432997174477 / 9575080441755, 2526269341429 / 6820363962896,
    2006345519317 / 3224310063776, 2802321613138 / 2924317926251]

/-- One stage of `LSRK4.take_time_step` (stepper.py lines 216-226):
`dU = a_i*dU + dUtemp; U += b_i*dU`, then the limiter on `U`. -/
def lsrk4Stage {α : Type} [AddCommGroup α] [Module ℝ α] (ctx : StepCtx α)
    (dt T : ℝ) (i : Fin 5) (s : SimState α) : SimState α :=
  let s1 := doRes ctx .U s.U { s with time := T + rk4cCoef i * dt }
  let dUn := rk4aCoef i • s1.dU + ctx.multInvMass dt s1.R
  let s2 := { s1 with
    dU := dUn,
    U := s1.U + rk4bCoef i • dUn,
    trace := s1.trace ++ [Ev.upd .U] }
  { s2 with U := ctx.applyLimiter s2.U, trace := s2.trace ++ [Ev.lim .U] }

/-- Source: `LSRK4.take_time_step` (stepper.py lines 207-228): five stages. -/
def lsrk4Step {α : Type} [AddCommGroup α] [Module ℝ α] (ctx : StepCtx α)
    (dt : ℝ) (s : SimState α) : SimState α × α :=
  let T := s.time
  let s5 := lsrk4Stage ctx dt T 4 (lsrk4Stage ctx dt T 3 (lsrk4Stage ctx dt T
    2 (lsrk4Stage ctx dt T 1 (lsrk4Stage ctx dt T 0 s))))
  (s5, s5.R)

/-- The SSPRK3 `ssprk3a` coefficients (stepper.py lines 260-261). -/
def ssprk3aCoef : Fin 5 → ℝ :=
  ![0, -2.60810978953486, -0.08977353434746, -0.60081019321053,
    -0.72939715170280]

/-- The SSPRK3 `ssprk3b` coefficients (stepper.py lines 262-263). -/
def ssprk3bCoef : Fin 5 → ℝ :=
  ![0.67892607116139, 0.20654657933371, 0.27959340290485, 0.31738259840613,
    0.30319904778284]

/-- One stage of `SSPRK3.take_time_step` (stepper.py lines 276-285). -/
def ssprk3Stage {α : Type} [AddCommGroup α] [Module ℝ α] (ctx : StepCtx α)
    (dt T : ℝ) (i : Fin 5) (s : SimState α) : SimState α :=
  let s1 := doRes ctx .U s.U { s with time := T + dt }
  let dUn := ssprk3aCoef i • s1.dU + ctx.multInvMass dt s1.R
  let s2 := { s1 with
    dU := dUn,
    U := s1.U + ssprk3bCoef i • dUn,
    trace := s1.trace ++ [Ev.upd .U] }
  { s2 with U := ctx.applyLimiter s2.U, trace := s2.trace ++ [Ev.lim .U] }

/-- Source: `SSPRK3.take_time_step` (stepper.py lines 267-287): five stages. -/
def ssprk3Step {α : Type} [AddCommGroup α] [Module ℝ α] (ctx : StepCtx α)
    (dt : ℝ) (s : SimState α) : SimState α × α :=
  let T := s.time
  let s5 := ssprk3Stage ctx dt T 4 (ssprk3Stage ctx dt T 3 (ssprk3Stage ctx
    dt T 2 (ssprk3Stage ctx dt T 1 (ssprk3Stage ctx dt T 0 s))))
  (s5, s5.R)

/-- Source: `ADER.take_time_step` (stepper.py lines 305-324): the predictor
updates `U_pred`, the corrector residual reads `U_pred` (with NO limiter
call in between), then `W = physics.U` is updated and limited. -/
def aderStep {α : Type} [AddCommGroup α] [Module ℝ α] (ctx : StepCtx α)
    (dt : ℝ) (s : SimState α) : SimState α × α :=
  let s1 := { s with
    Upred := ctx.predictor dt s.U s.Upred,
    trace := s.trace ++ [Ev.upd .Upred] }
  let s2 := doRes ctx .Upred s1.Upred s1
  let dU := ctx.multInvMass (dt / 2) s2.R
  let s3 := { s2 with U := s2.U + dU, trace := s2.trace ++ [Ev.upd .U] }
  let s4 := { s3 with
    U := ctx.applyLimiter s3.U,
    trace := s3.trace ++ [Ev.lim .U] }
  (s4, s4.R)

/-- Source: `implicit.take_time_step(solver)` inside the splitting schemes:
invoke the abstract implicit ODE solver under the current switches,
balance constant and time, and log the call. -/
def implicitCall {α : Type} (ctx : StepCtx α) (dt : ℝ) (s : SimState α) :
    SimState α × α :=
  let p := ctx.implicitStep dt s.source s.conv s.balance s.time s.U
  ({ s with
    U := p.1,
    trace := s.trace ++ [Ev.impl s.source s.conv s.balance dt] }, p.2)

/-- Source: `Strang.take_time_step` (stepper.py lines 368-393), over an abstract
explicit sub-stepper `expl` (`self.explicit.take_time_step` with its
`dt` already assigned): the sub-step sizes are `dt/2` (explicit) and `dt`
(implicit).  NOTE: the first sub-step only sets `SourceSwitch = False`
and leaves `ConvFluxSwitch` at its entry value (line 379). -/
def strangStep {α : Type} (ctx : StepCtx α)
    (expl : ℝ → SimState α → SimState α × α) (dt : ℝ) (s : SimState α) :
    SimState α × α :=
  let p1 := expl (dt / 2) { s with source := false }
  let p2 := implicitCall ctx dt { p1.1 with source := true, conv := false }
  let p3 := expl (dt / 2) { p2.1 with source := false, conv := true }
  p3

/-- The Strang step exactly as C5 describes it: an explicit sub-step of
size `dt/2` with switches (SourceSwitch False, ConvFluxSwitch True), an
implicit sub-step of size `dt` with (True, False), a second explicit
sub-step of size `dt/2` with (False, True); the returned residual is the
last explicit sub-step's. -/
def strangSpecStep {α : Type} (ctx : StepCtx α)
    (expl : ℝ → SimState α → SimState α × α) (dt : ℝ) (s : SimState α) :
    SimState α × α :=
  let p1 := expl (dt / 2) { s with source := false, conv := true }
  let p2 := implicitCall ctx dt { p1.1 with source := true, conv := false }
  let p3 := expl (dt / 2) { p2.1 with source := false, conv := true }
  (p3.1, p3.2)

/-- Source: `Simpler.take_time_step` (stepper.py lines 409-440): with
`SourceSwitch` off and `balance_const = None`, evaluate the residual at
the pre-step state; `balance_const = -residual`; store its negation for
the implicit sub-step; after the implicit sub-step restore
`balance_const` (the negation of what the implicit step saw) for the
explicit half-step.  The first explicit half-step of Strang is skipped
(comment, lines 423-424). -/
def simplerStep {α : Type} [AddCommGroup α] [Module ℝ α] (ctx : StepCtx α)
    (expl : ℝ → SimState α → SimState α × α) (dt : ℝ) (s : SimState α) :
    SimState α × α :=
  let sA := { s with source := false, balance := none }
  let sB := doRes ctx .U sA.U sA
  let bc := -sB.R
  let p2 := implicitCall ctx dt
    { sB with balance := some (-bc), source := true, conv := false }
  let p3 := expl (dt / 2)
    { p2.1 with source := false, conv := true, balance := some bc }
  p3

/-- The Simpler step as C6 amends it: the balance constant made available
to the implicit sub-step is the residual evaluated at the pre-step state
with the SOURCE DISABLED (convective residual; the balance constant
itself disabled during that evaluation); the explicit half-step then runs
with its negation; there is no first explicit half-step. -/
def simplerSpecStep {α : Type} [AddCommGroup α] [Module ℝ α]
    (ctx : StepCtx α) (expl : ℝ → SimState α → SimState α × α) (dt : ℝ)
    (s : SimState α) : SimState α × α :=
  let Rb := ctx.getResidual false s.conv none s.time s.U s.R
  let p2 := implicitCall ctx dt
    { s with
      source := true,
      conv := false,
      balance := some Rb,
      R := Rb,
      trace := s.trace ++ [Ev.res false s.conv none ArrId.U] }
  let p3 := expl (dt / 2)
    { p2.1 with source := false, conv := true, balance := some (-Rb) }
  p3

/-- The balance constant as C6 states it: the SOURCE residual of the
residual operator at the pre-step state (source on, convective flux off,
balance constant disabled). -/
def simplerClaimBalance {α : Type} (ctx : StepCtx α) (s : SimState α) : α :=
  ctx.getResidual true false none s.time s.U s.R

/-- The concrete solver context used by the stepper witnesses: the
residual is `10` when the source switch is on and `20` otherwise. -/
def ctxEx : StepCtx ℝ where
  getResidual := fun src _ _ _ _ _ => if src then 10 else 20
  multInvMass := fun _ R => R
  applyLimiter := fun U => U
  predictor := fun _ _ up => up
  implicitStep := fun _ _ _ _ _ u => (u, 0)

/-- The concrete entry state used by the stepper witnesses. -/
def sEx : SimState ℝ :=
  { source := false, conv := true, time := 0, balance := none, U := 0,
    Upred := 0, R := 0, dU := 0, trace := [] }

/-- Bool-valued check that, after an update of array `a`, a limiter call
on `a` occurs before any residual evaluation reads `a` and before the
trace ends. -/
def cleanAfterUpd {α : Type} (a : ArrId) : List (Ev α) → Bool
  | [] => false
  | Ev.lim b :: rest => if b = a then true else cleanAfterUpd a rest
  | Ev.res _ _ _ b :: rest => if b = a then false else cleanAfterUpd a rest
  | _ :: rest => cleanAfterUpd a rest

/-- Bool-valued check of C7's ordering: every solution-array update is
followed by a limiter application on that array before the array is next
read by a residual evaluation or the trace ends. -/
def limiterOrdered {α : Type} : List (Ev α) → Bool
  | [] => true
  | Ev.upd a :: rest => cleanAfterUpd a rest && limiterOrdered rest
  | _ :: rest => limiterOrdered rest

/-- The ordering check with updates of the ADER predictor array exempt. -/
def limiterOrderedExceptPred {α : Type} : List (Ev α) → Bool
  | [] => true
  | Ev.upd ArrId.Upred :: rest => limiterOrderedExceptPred rest
  | Ev.upd a :: rest => cleanAfterUpd a rest && limiterOrderedExceptPred rest
  | _ :: rest => limiterOrderedExceptPred rest

/-! ### Theorems -/

/-- Helper: Lax-Friedrichs flux is consistent. -/
theorem lfFlux_consistent (γ : ℝ) (U : St) (n : ℝ) (hn : n ≠ 0) :
    lfFlux γ U U n = fluxProj γ U n := by
  have hmag : |n| ≠ 0 := abs_ne_zero.mpr hn
  simp only [lfFlux, fluxProj, sub_self, smul_zero]
  obtain ⟨r, m, e⟩ := U
  simp only [Prod.smul_mk, Prod.mk_add_mk, Prod.mk_sub_mk, sub_zero, smul_eq_mul,
    Prod.mk.injEq]
  refine ⟨?_, ?_, ?_⟩ <;> field_simp <;> ring

/-- Helper: rotation preserves the density component. -/
theorem rotSt_rho (U : St) (nh : ℝ) : (rotSt U nh).rho = U.rho := rfl

/-- Helper: with zero jumps the Roe dissipation vanishes. -/
theorem roeDiss_zero (c2 c v H rr : ℝ) : roeDiss c2 c v H rr 0 0 0 = (0, 0, 0) := by
  simp only [roeDiss]
  norm_num

/-- Helper: rotating by the negated normal flips the rotated momentum. -/
theorem rotSt_neg (U : St) (nh : ℝ) : rotSt U (-nh) = flipMom (rotSt U nh) := by
  simp only [rotSt, flipMom, St.rho, St.mom, St.en, neg_mul]

/-- Helper: flipping momentum preserves density. -/
theorem rho_flipMom (U : St) : (flipMom U).rho = U.rho := rfl

/-- Helper: flipping momentum negates velocity. -/
theorem vel_flipMom (U : St) : vel (flipMom U) = -vel U := by
  simp only [vel, flipMom, St.rho, St.mom, neg_div]

/-- Helper: pressure is even in the momentum. -/
theorem pres_flipMom (γ : ℝ) (U : St) : pres γ (flipMom U) = pres γ U := by
  simp only [pres, kinE, flipMom, St.rho, St.mom, St.en, neg_sq]

/-- Helper: flipping momentum preserves energy. -/
theorem en_flipMom (U : St) : (flipMom U).en = U.en := rfl

/-- Helper: total enthalpy is even in the momentum. -/
theorem enth_flipMom (γ : ℝ) (U : St) : enth γ (flipMom U) = enth γ U := by
  simp only [enth, pres_flipMom, rho_flipMom, en_flipMom]

/-- Helper: swapping and flipping both states negates the Roe velocity. -/
theorem roeVel_flip_swap (A B : St) :
    roeVel (flipMom B) (flipMom A) = -roeVel A B := by
  simp only [roeVel, rho_flipMom, vel_flipMom]
  ring

/-- Helper: swapping and flipping both states preserves the Roe enthalpy. -/
theorem roeEnth_flip_swap (γ : ℝ) (A B : St) :
    roeEnth γ (flipMom B) (flipMom A) = roeEnth γ A B := by
  simp only [roeEnth, rho_flipMom, enth_flipMom]
  ring

/-- Helper: swapping and flipping both states preserves the Roe density. -/
theorem roeDen_flip_swap (A B : St) :
    roeDen (flipMom B) (flipMom A) = roeDen A B := by
  simp only [roeDen, rho_flipMom]
  ring

/-- Helper: swapping and flipping both states preserves the Roe
sound-speed squared. -/
theorem roeC2_flip_swap (γ : ℝ) (A B : St) :
    roeC2 γ (flipMom B) (flipMom A) = roeC2 γ A B := by
  simp only [roeC2, roeEnth_flip_swap, roeVel_flip_swap, neg_sq]

/-- Helper: the Roe dissipation under swapped states and negated
velocity: density and energy components are negated, the (rotated)
momentum component is preserved. -/
theorem roeDiss_flip (c2 c v H rr pL pR vL vR rL rR : ℝ) :
    roeDiss c2 c (-v) H rr (pL - pR) (vR - vL) (rL - rR) =
      ( -(roeDiss c2 c v H rr (pR - pL) (vR - vL) (rR - rL)).1,
        (roeDiss c2 c v H rr (pR - pL) (vR - vL) (rR - rL)).2.1,
        -(roeDiss c2 c v H rr (pR - pL) (vR - vL) (rR - rL)).2.2 ) := by
  simp only [roeDiss]
  have h0 : -v - c = -(v + c) := by ring
  have h2 : -v + c = -(v - c) := by ring
  rw [h0, h2, abs_neg, abs_neg, abs_neg]
  refine Prod.ext ?_ (Prod.ext ?_ ?_) <;> · simp only; ring

/-- Helper: projection onto a negated normal negates the projected flux. -/
theorem fluxProj_neg (γ : ℝ) (U : St) (nh : ℝ) :
    fluxProj γ U (-nh) = -fluxProj γ U nh := by
  simp only [fluxProj, Prod.neg_mk, neg_mul]

/-- Helper: the Roe velocity of a state with itself is its velocity. -/
theorem roeVel_self (U : St) (h : 0 < U.rho) : roeVel U U = vel U := by
  have hs : Real.sqrt U.rho ≠ 0 := ne_of_gt (Real.sqrt_pos.mpr h)
  simp only [roeVel]
  field_simp
  ring

/-- Helper: the Roe enthalpy of a state with itself is its enthalpy. -/
theorem roeEnth_self (γ : ℝ) (U : St) (h : 0 < U.rho) :
    roeEnth γ U U = enth γ U := by
  have hs : Real.sqrt U.rho ≠ 0 := ne_of_gt (Real.sqrt_pos.mpr h)
  simp only [roeEnth]
  field_simp
  ring

/-- Helper: for a rotated state paired with itself the Roe sound-speed
squared is the perfect-gas `gamma*p/rho`. -/
theorem roeC2_rot_self (γ : ℝ) (U : St) (nh : ℝ) (hρ : 0 < U.rho)
    (h2 : nh ^ 2 = 1) :
    roeC2 γ (rotSt U nh) (rotSt U nh) = γ * pres γ U / U.rho := by
  have hρ' : (0:ℝ) < (rotSt U nh).rho := hρ
  have hne : U.rho ≠ 0 := ne_of_gt hρ
  rw [roeC2, roeVel_self _ hρ', roeEnth_self _ _ hρ']
  simp only [rotSt, enth, pres, kinE, vel, St.rho, St.mom, St.en, div_pow,
    mul_pow, h2, one_mul]
  field_simp
  ring

/-- Helper: the unit normal squares to one. -/
theorem nhat_sq (n : ℝ) (hn : n ≠ 0) : (n / |n|) ^ 2 = 1 := by
  rw [div_pow, sq_abs]
  exact div_self (pow_ne_zero 2 hn)

/-- Helper: Roe flux is consistent on physically valid states. -/
theorem roeFlux_consistent (γ : ℝ) (U : St) (n : ℝ) (hγ : 1 < γ)
    (hρ : 0 < U.rho) (hp : 0 < pres γ U) (hn : n ≠ 0) :
    roeFlux γ U U n = .ok (fluxProj γ U n) := by
  have hmag : (0:ℝ) < |n| := abs_pos.mpr hn
  have hc2 := roeC2_rot_self γ U (n / |n|) hρ (nhat_sq n hn)
  have hc2pos : 0 < roeC2 γ (rotSt U (n / |n|)) (rotSt U (n / |n|)) := by
    rw [hc2]
    exact div_pos (mul_pos (lt_trans one_pos hγ) hp) hρ
  simp only [roeFlux, rotSt_rho]
  rw [if_neg (not_le.mpr hρ), if_neg (not_le.mpr hρ), if_neg (not_le.mpr hc2pos)]
  simp only [sub_self, roeDiss_zero, zero_div]
  refine congrArg Except.ok ?_
  simp only [fluxProj, Prod.mk_add_mk, Prod.mk_sub_mk, Prod.smul_mk,
    smul_eq_mul, sub_zero, Prod.mk.injEq]
  have hne : |n| ≠ 0 := ne_of_gt hmag
  refine ⟨?_, ?_, ?_⟩ <;> · field_simp; ring

/-- Helper: Lax-Friedrichs flux is conservative (antisymmetric). -/
theorem lfFlux_conservative (γ : ℝ) (L R : St) (n : ℝ) :
    lfFlux γ R L (-n) = -lfFlux γ L R n := by
  obtain ⟨a1, a2, a3⟩ := L
  obtain ⟨b1, b2, b3⟩ := R
  simp only [lfFlux, fluxProj, abs_neg, neg_div, neg_mul, Prod.mk_add_mk,
    Prod.mk_sub_mk, Prod.smul_mk, Prod.neg_mk, smul_eq_mul, Prod.mk.injEq,
    max_comm]
  refine ⟨?_, ?_, ?_⟩ <;> ring

/-- Helper: Roe flux is conservative (antisymmetric) on states where no
error is raised. -/
theorem roeFlux_conservative (γ : ℝ) (L R : St) (n : ℝ)
    (hL : 0 < L.rho) (hR : 0 < R.rho)
    (hc : 0 < roeC2 γ (rotSt L (n / |n|)) (rotSt R (n / |n|))) :
    roeFlux γ R L (-n) = Except.map (fun F => -F) (roeFlux γ L R n) := by
  simp only [roeFlux, abs_neg, neg_div, rotSt_neg, rotSt_rho, rho_flipMom,
    roeC2_flip_swap, roeVel_flip_swap, roeEnth_flip_swap, roeDen_flip_swap,
    pres_flipMom, vel_flipMom, neg_sub_neg]
  rw [if_neg (not_le.mpr hR), if_neg (not_le.mpr hL), if_neg (not_le.mpr hc),
    if_neg (not_le.mpr hL), if_neg (not_le.mpr hR), if_neg (not_le.mpr hc)]
  rw [roeDiss_flip]
  simp only [Except.map, fluxProj_neg]
  refine congrArg Except.ok ?_
  refine Prod.ext ?_ (Prod.ext ?_ ?_) <;>
    · simp only [Prod.smul_fst, Prod.smul_snd, Prod.fst_add, Prod.snd_add,
        Prod.fst_sub, Prod.snd_sub, Prod.fst_neg, Prod.snd_neg, smul_eq_mul]
      ring

/-- Helper: with identical left and right data the wave-speed estimate is
`(u - a, u + a)`. -/
theorem waveSpeeds_self (rho a p u g : ℝ) (hρ : 0 < rho) (ha : 0 ≤ a) :
    waveSpeeds rho rho a a p p u u g = (u - a, u + a) := by
  have hs : Real.sqrt rho ≠ 0 := ne_of_gt (Real.sqrt_pos.mpr hρ)
  have hroe : waveSpeedsRoe rho rho a a u u = (u - a, u + a) := by
    simp only [waveSpeedsRoe, sub_self]
    have hu : (Real.sqrt rho * u + Real.sqrt rho * u) *
        (1 / (Real.sqrt rho + Real.sqrt rho)) = u := by
      field_simp
      ring
    have harg : (Real.sqrt rho * a ^ 2 + Real.sqrt rho * a ^ 2) *
        (1 / (Real.sqrt rho + Real.sqrt rho)) +
        0.5 * (Real.sqrt rho * Real.sqrt rho * 0 ^ 2) *
        (1 / (Real.sqrt rho + Real.sqrt rho)) ^ 2 = a ^ 2 := by
      field_simp
      ring
    rw [hu, harg, Real.sqrt_sq ha]
  have hpvrs : waveSpeedsPvrs rho rho a a p p u u g = (u - a, u + a) := by
    simp only [waveSpeedsPvrs]
    rw [show 0.5 * (p + p - (u - u) * (0.5 * (rho + rho)) * (0.5 * (a + a)))
      = p by ring]
    simp [pvrsQ]
  simp only [waveSpeeds, hroe, hpvrs, min_self, max_self]

/-- Helper: the star state rebuilt from one side's own data is that state
itself, so the star flux correction vanishes. -/
theorem hllcStar_self (γ : ℝ) (U : St) (nh Sk : ℝ) (hρ : U.rho ≠ 0)
    (hSk : Sk - vel U * nh ≠ 0) :
    hllcStar γ U nh Sk (pres γ U) (vel U * nh) (vel U ^ 2) (inte U)
      (vel U * nh) (U.rho * (Sk - vel U * nh)) = fluxProj γ U nh := by
  simp only [hllcStar]
  have h1 : U.rho * (Sk - vel U * nh) / (Sk - vel U * nh) = U.rho := by
    rw [mul_div_assoc, div_self hSk, mul_one]
  have hC : (vel U * nh - vel U * nh) *
      (vel U * nh + pres γ U / (U.rho * (Sk - vel U * nh))) = 0 := by ring
  have hvk : vel U + nh * (vel U * nh - vel U * nh) = vel U := by ring
  rw [h1, hC, hvk]
  have hUstar : ((U.rho, U.rho * vel U,
      U.rho * (inte U + 0.5 * vel U ^ 2 + 0)) : St) = U := by
    obtain ⟨r, m, E⟩ := U
    simp only [St.rho, St.mom, St.en, vel, inte, kinE] at *
    refine Prod.ext rfl (Prod.ext ?_ ?_) <;> · simp only; field_simp; try ring
  rw [hUstar, sub_self, smul_zero, add_zero]

/-- Helper: HLLC flux is consistent on physically valid states. -/
theorem hllcFlux_consistent (γ : ℝ) (U : St) (n : ℝ) (hγ : 1 < γ)
    (hρ : 0 < U.rho) (hp : 0 < pres γ U) (hn : n ≠ 0) :
    hllcFlux γ U U n = fluxProj γ U n := by
  have hmag : (0:ℝ) < |n| := abs_pos.mpr hn
  have hmagne : |n| ≠ 0 := ne_of_gt hmag
  have hρne : U.rho ≠ 0 := ne_of_gt hρ
  have hapos : 0 < snd γ U := by
    rw [snd]
    exact Real.sqrt_pos.mpr (div_pos (mul_pos (lt_trans one_pos hγ) hp) hρ)
  have hane : snd γ U ≠ 0 := ne_of_gt hapos
  have hproj : |n| • fluxProj γ U (n / |n|) = fluxProj γ U n := by
    simp only [fluxProj, Prod.smul_mk, smul_eq_mul, Prod.mk.injEq]
    refine ⟨?_, ?_, ?_⟩ <;> · field_simp; try ring
  have hSkR : vel U * (n / |n|) + snd γ U - vel U * (n / |n|) ≠ 0 := by
    rw [show vel U * (n / |n|) + snd γ U - vel U * (n / |n|) = snd γ U by ring]
    exact hane
  have hSkL : vel U * (n / |n|) - snd γ U - vel U * (n / |n|) ≠ 0 := by
    rw [show vel U * (n / |n|) - snd γ U - vel U * (n / |n|)
      = -snd γ U by ring]
    exact neg_ne_zero.mpr hane
  have hd : U.rho * (vel U * (n / |n|) - snd γ U - vel U * (n / |n|)) -
      U.rho * (vel U * (n / |n|) + snd γ U - vel U * (n / |n|)) ≠ 0 := by
    rw [show U.rho * (vel U * (n / |n|) - snd γ U - vel U * (n / |n|)) -
      U.rho * (vel U * (n / |n|) + snd γ U - vel U * (n / |n|))
      = -(2 * (U.rho * snd γ U)) by ring]
    exact neg_ne_zero.mpr (mul_ne_zero two_ne_zero (mul_ne_zero hρne hane))
  have hstar : (pres γ U - pres γ U +
      vel U * (n / |n|) * (U.rho * (vel U * (n / |n|) - snd γ U -
        vel U * (n / |n|))) -
      vel U * (n / |n|) * (U.rho * (vel U * (n / |n|) + snd γ U -
        vel U * (n / |n|)))) /
      (U.rho * (vel U * (n / |n|) - snd γ U - vel U * (n / |n|)) -
       U.rho * (vel U * (n / |n|) + snd γ U - vel U * (n / |n|)))
      = vel U * (n / |n|) := by
    rw [div_eq_iff hd]
    ring
  simp only [hllcFlux, waveSpeeds_self U.rho (snd γ U) (pres γ U)
    (vel U * (n / |n|)) γ hρ (le_of_lt hapos)]
  split_ifs with h1 h2 h3
  · exact hproj
  · rw [hstar, hllcStar_self γ U (n / |n|) _ hρne hSkR]
    exact hproj
  · rw [hstar, hllcStar_self γ U (n / |n|) _ hρne hSkL]
    exact hproj
  · exact hproj

/-- C1: Numerical-flux consistency: for every physically valid state
(positive density and pressure, adiabatic exponent above one) and every
nonzero normal, each of the Lax-Friedrichs, Roe and HLLC numerical fluxes
evaluated with equal left and right states equals the analytic interior
flux projected onto the normal (the dissipation/jump terms vanish). -/
theorem C1_numerical_flux_consistency (γ : ℝ) (U : St) (n : ℝ) (hγ : 1 < γ)
    (hρ : 0 < U.rho) (hp : 0 < pres γ U) (hn : n ≠ 0) :
    lfFlux γ U U n = fluxProj γ U n ∧
    roeFlux γ U U n = .ok (fluxProj γ U n) ∧
    hllcFlux γ U U n = fluxProj γ U n :=
  ⟨lfFlux_consistent γ U n hn, roeFlux_consistent γ U n hγ hρ hp hn,
    hllcFlux_consistent γ U n hγ hρ hp hn⟩

/-- Witness for C1 at `gamma = 2`, `U = (1, 1, 2)`, `n = 1`. -/
theorem C1_numerical_flux_consistency_witness :
    lfFlux 2 (1, 1, 2) (1, 1, 2) 1 = fluxProj 2 (1, 1, 2) 1 ∧
    roeFlux 2 (1, 1, 2) (1, 1, 2) 1 = .ok (fluxProj 2 (1, 1, 2) 1) ∧
    hllcFlux 2 (1, 1, 2) (1, 1, 2) 1 = fluxProj 2 (1, 1, 2) 1 :=
  C1_numerical_flux_consistency 2 (1, 1, 2) 1 (by norm_num)
    (by norm_num [St.rho]) (by norm_num [pres, kinE, St.rho, St.mom, St.en])
    (by norm_num)

/-- C2: Numerical-flux conservation (antisymmetry): for every pair of
states and every normal, `flux(L,R,n) = -flux(R,L,-n)` for the
Lax-Friedrichs flux, and likewise for the Roe flux on pairs where it
raises no error (positive densities and positive Roe-averaged
sound-speed squared). -/
theorem C2_numerical_flux_conservation (γ : ℝ) (L R : St) (n : ℝ)
    (hL : 0 < L.rho) (hR : 0 < R.rho)
    (hc : 0 < roeC2 γ (rotSt L (n / |n|)) (rotSt R (n / |n|))) :
    lfFlux γ R L (-n) = -lfFlux γ L R n ∧
    roeFlux γ R L (-n) = Except.map (fun F => -F) (roeFlux γ L R n) :=
  ⟨lfFlux_conservative γ L R n, roeFlux_conservative γ L R n hL hR hc⟩

/-- Witness for C2 at `gamma = 2`, `L = (1, 0, 1)`, `R = (1, 1, 3)`,
`n = 1` (the Roe-averaged sound-speed squared there is `3.625`). -/
theorem C2_numerical_flux_conservation_witness :
    lfFlux 2 (1, 1, 3) (1, 0, 1) (-1) = -lfFlux 2 (1, 0, 1) (1, 1, 3) 1 ∧
    roeFlux 2 (1, 1, 3) (1, 0, 1) (-1) =
      Except.map (fun F => -F) (roeFlux 2 (1, 0, 1) (1, 1, 3) 1) :=
  C2_numerical_flux_conservation 2 (1, 0, 1) (1, 1, 3) 1
    (by norm_num [St.rho]) (by norm_num [St.rho])
    (by norm_num [roeC2, roeEnth, roeVel, rotSt, enth, pres, kinE, vel,
      St.rho, St.mom, St.en, Real.sqrt_one])

/-- C3: `Roe1D.compute_flux` raises `NotPhysicalError` exactly when some
input density is nonpositive or the sound-speed squared
`c2 = (gamma-1)*(HRoe - 0.5*velRoe^2)` derived from the Roe-averaged
(rotated) state is nonpositive; otherwise no error is raised and a flux
is returned.  (NaN has no counterpart in the real-number model; there
`c2 <= 0` is the only failing sound-speed condition.) -/
theorem C3_roe_notPhysical_iff (γ : ℝ) (L R : St) (n : ℝ) :
    (∃ e, roeFlux γ L R n = .error e) ↔
      L.rho ≤ 0 ∨ R.rho ≤ 0 ∨
        roeC2 γ (rotSt L (n / |n|)) (rotSt R (n / |n|)) ≤ 0 := by
  simp only [roeFlux, rotSt_rho]
  split_ifs with h1 h2 h3
  · simp [h1]
  · simp [h1, h2]
  · simp [h1, h2, h3]
  · simp [h1, h2, h3]

/-- Helper: concrete square roots used by the C4 counterexample. -/
theorem sqrt_four : Real.sqrt 4 = 2 := by
  rw [show (4:ℝ) = 2 ^ 2 by norm_num, Real.sqrt_sq (by norm_num : (0:ℝ) ≤ 2)]

/-- Helper: the square root of nine. -/
theorem sqrt_nine : Real.sqrt 9 = 3 := by
  rw [show (9:ℝ) = 3 ^ 2 by norm_num, Real.sqrt_sq (by norm_num : (0:ℝ) ≤ 3)]

/-- C4 counterexample: at `gamma = 2`, `L = (1,(0,3),6.5)` (pressure 2,
sound speed 2, speed 3, all of it tangential to `n = (1,0)`),
`R = (1,(0,0),2)` (at rest, pressure 2), the code's flux uses
`alpha = max(2+3, 2+0) = 5`, while the claimed formula's normal-velocity
wave speed gives `alpha = max(2+0, 2+0) = 2`; the fluxes differ. -/
theorem C4_lf_formula_counterexample :
    lfFlux2 2 (1, (0, 3), 6.5) (1, (0, 0), 2) (1, 0) ≠
      lfClaimFormula 2 (1, (0, 3), 6.5) (1, (0, 0), 2) (1, 0) := by
  have hcode : lfFlux2 2 (1, (0, 3), 6.5) (1, (0, 0), 2) (1, 0) =
      (0, (2, 7.5), 11.25) := by
    simp only [lfFlux2, fluxProj2, snd2, pres2, vel2, vnorm, dot,
      St4.rho, St4.mom, St4.en]
    norm_num [Real.sqrt_one, sqrt_four, sqrt_nine, Prod.mk_add_mk,
      Prod.mk_sub_mk, Prod.smul_mk, smul_eq_mul]
  have hclaim : lfClaimFormula 2 (1, (0, 3), 6.5) (1, (0, 0), 2) (1, 0) =
      (0, (2, 3), 4.5) := by
    simp only [lfClaimFormula, fluxProj2, snd2, pres2, vel2, vnorm, dot,
      St4.rho, St4.mom, St4.en]
    norm_num [Real.sqrt_one, sqrt_four, sqrt_nine, Prod.mk_add_mk,
      Prod.mk_sub_mk, Prod.smul_mk, smul_eq_mul]
  rw [hcode, hclaim]
  intro h
  have := congrArg (fun x : St4 => x.2.1.2) h
  norm_num at this

/-- C4 as amended: `LaxFriedrichs.compute_flux` returns, pointwise per
quadrature point, `0.5*|n|*(F(L)+F(R) - alpha*(U_R-U_L))` where `alpha`
is the maximum over the two sides of (local sound speed + velocity
magnitude), `F` being the interior flux tensor contracted with the unit
normal. -/
theorem C4_lf_formula (γ : ℝ) (UL UR : St4) (nv : Vec2) :
    lfFlux2 γ UL UR nv = lfSpecFormula γ UL UR nv := by
  obtain ⟨rL, ⟨mL1, mL2⟩, eL⟩ := UL
  obtain ⟨rR, ⟨mR1, mR2⟩, eR⟩ := UR
  simp only [lfFlux2, lfSpecFormula, fluxProj2, fluxX, fluxY, dot, vel2,
    St4.rho, St4.mom, St4.en, Prod.smul_mk, Prod.mk_add_mk, Prod.mk_sub_mk,
    smul_eq_mul, Prod.mk.injEq]
  refine ⟨?_, ⟨?_, ?_⟩, ?_⟩ <;> ring

/-- Helper: the squared norm under the square root. -/
theorem vnorm_sq (v : Vec2) : vnorm v ^ 2 = v.1 ^ 2 + v.2 ^ 2 :=
  Real.sq_sqrt (by positivity)

/-- Helper: a nonzero 2D vector has nonzero norm. -/
theorem vnorm_ne_zero (v : Vec2) (hv : v ≠ 0) : vnorm v ≠ 0 := by
  have h : 0 < v.1 ^ 2 + v.2 ^ 2 := by
    by_contra hc
    push_neg at hc
    have h1 : v.1 = 0 := by nlinarith [sq_nonneg v.1, sq_nonneg v.2]
    have h2 : v.2 = 0 := by nlinarith [sq_nonneg v.1, sq_nonneg v.2]
    exact hv (Prod.ext h1 h2)
  exact ne_of_gt (Real.sqrt_pos.mpr h)

/-- C8: the slip-wall boundary state keeps density, energy and the
tangential momentum component of the interior state and has zero
momentum along the unit face normal. -/
theorem C8_slip_wall_boundary_state (U : St4) (nv : Vec2) (hn : nv ≠ 0) :
    (slipWall U nv).rho = U.rho ∧ (slipWall U nv).en = U.en ∧
    dot (slipWall U nv).mom (nv.1 / vnorm nv, nv.2 / vnorm nv) = 0 ∧
    dot (slipWall U nv).mom (-(nv.2 / vnorm nv), nv.1 / vnorm nv) =
      dot U.mom (-(nv.2 / vnorm nv), nv.1 / vnorm nv) := by
  have ht : vnorm nv ≠ 0 := vnorm_ne_zero nv hn
  have ht2 : vnorm nv ^ 2 = nv.1 ^ 2 + nv.2 ^ 2 := vnorm_sq nv
  refine ⟨rfl, rfl, ?_, ?_⟩
  · simp only [slipWall, dot, St4.mom]
    field_simp
    linear_combination (U.2.1.1 * nv.1 + U.2.1.2 * nv.2) * ht2
  · simp only [slipWall, dot, St4.mom]
    ring

/-- Witness for C8 at `U = (1, (2, 3), 4)`, `n = (1, 0)`. -/
theorem C8_slip_wall_boundary_state_witness :
    St4.rho (slipWall (1, (2, 3), 4) (1, 0)) = St4.rho (1, (2, 3), 4) ∧
    St4.en (slipWall (1, (2, 3), 4) (1, 0)) = St4.en (1, (2, 3), 4) ∧
    dot (St4.mom (slipWall (1, (2, 3), 4) (1, 0)))
      ((1:ℝ) / vnorm (1, 0), (0:ℝ) / vnorm (1, 0)) = 0 ∧
    dot (St4.mom (slipWall (1, (2, 3), 4) (1, 0)))
      (-((0:ℝ) / vnorm (1, 0)), (1:ℝ) / vnorm (1, 0)) =
      dot (St4.mom (1, (2, 3), 4))
        (-((0:ℝ) / vnorm (1, 0)), (1:ℝ) / vnorm (1, 0)) :=
  C8_slip_wall_boundary_state (1, (2, 3), 4) (1, 0)
    (by simp [Prod.ext_iff])

/-- Helper: the square root of sixteen. -/
theorem sqrt_sixteen : Real.sqrt 16 = 4 := by
  rw [show (16:ℝ) = 4 ^ 2 by norm_num, Real.sqrt_sq (by norm_num : (0:ℝ) ≤ 4)]

/-- Helper: the negative-pressure test of the example batch is false. -/
theorem outlet_ex_pres :
    (pres 2 ((1 : ℝ), (3 : ℝ), (6.5 : ℝ)) < 0 ↔ False) ∧
    (pres 2 ((1 : ℝ), (0 : ℝ), (2 : ℝ)) < 0 ↔ False) := by
  constructor <;> · norm_num [pres, kinE, St.rho, St.mom, St.en]

/-- Helper: the first example point is supersonic. -/
theorem outlet_ex_supersonic :
    1 ≤ vel ((1 : ℝ), (3 : ℝ), (6.5 : ℝ)) * (1 / |(1:ℝ)|) /
      snd 2 ((1 : ℝ), (3 : ℝ), (6.5 : ℝ)) := by
  norm_num [vel, snd, pres, kinE, St.rho, St.mom, St.en, sqrt_four]

/-- Helper: the second example point is subsonic. -/
theorem outlet_ex_subsonic :
    ¬ 1 ≤ vel ((1 : ℝ), (0 : ℝ), (2 : ℝ)) * (1 / |(1:ℝ)|) /
      snd 2 ((1 : ℝ), (0 : ℝ), (2 : ℝ)) := by
  norm_num [vel, snd, pres, kinE, St.rho, St.mom, St.en, sqrt_four]

/-- Helper: the subsonic construction at the second example point. -/
theorem outlet_ex_point :
    outletPoint 2 32 ((1 : ℝ), (0 : ℝ), (2 : ℝ)) 1 = (4, -16, 64) := by
  have hp : pres 2 ((1 : ℝ), (0 : ℝ), (2 : ℝ)) = 2 := by
    norm_num [pres, kinE, St.rho, St.mom, St.en]
  have hv : vel ((1 : ℝ), (0 : ℝ), (2 : ℝ)) = 0 := by
    norm_num [vel, St.rho, St.mom]
  have hc : snd 2 ((1 : ℝ), (0 : ℝ), (2 : ℝ)) = 2 := by
    rw [snd, hp]
    norm_num [St.rho, sqrt_four]
  simp only [outletPoint, St.rho]
  rw [hp, hv, hc]
  rw [show (32 : ℝ) / 2 = 16 by norm_num,
    show ((16:ℝ) ^ (1 / (2:ℝ))) = 4 by
      rw [← Real.sqrt_eq_rpow]; exact sqrt_sixteen]
  rw [show (2 : ℝ) * 32 / (1 * 4) = 16 by norm_num, sqrt_sixteen]
  norm_num [Prod.mk.injEq]

/-- C9 counterexample: at `gamma = 2`, `pB = 32`, on the two-point batch
with a supersonic first point `(1, 3, 6.5)` and a subsonic second point
`(1, 0, 2)` (both with normal `1`), the code extrapolates the WHOLE batch
(returns both interior states), while the claimed pointwise behaviour
constructs the subsonic boundary state `(4, -16, 64)` at the second
point. -/
theorem C9_pressure_outlet_counterexample :
    pressureOutlet 2 32 [(((1 : ℝ), (3 : ℝ), (6.5 : ℝ)), (1 : ℝ)),
        (((1 : ℝ), (0 : ℝ), (2 : ℝ)), (1 : ℝ))] ≠
      pressureOutletClaim 2 32 [(((1 : ℝ), (3 : ℝ), (6.5 : ℝ)), (1 : ℝ)),
        (((1 : ℝ), (0 : ℝ), (2 : ℝ)), (1 : ℝ))] := by
  have hA : pressureOutlet 2 32 [(((1 : ℝ), (3 : ℝ), (6.5 : ℝ)), (1 : ℝ)),
      (((1 : ℝ), (0 : ℝ), (2 : ℝ)), (1 : ℝ))] =
      .ok [((1 : ℝ), (3 : ℝ), (6.5 : ℝ)), ((1 : ℝ), (0 : ℝ), (2 : ℝ))] := by
    rw [pressureOutlet, if_neg, if_pos]
    · simp
    · simp only [List.any_cons, List.any_nil, Bool.or_eq_true,
        decide_eq_true_eq]
      exact Or.inl outlet_ex_supersonic
    · simp only [List.any_cons, List.any_nil, Bool.or_eq_true,
        decide_eq_true_eq, outlet_ex_pres.1, outlet_ex_pres.2]
      simp
  have hB : pressureOutletClaim 2 32 [(((1 : ℝ), (3 : ℝ), (6.5 : ℝ)), (1 : ℝ)),
      (((1 : ℝ), (0 : ℝ), (2 : ℝ)), (1 : ℝ))] =
      .ok [((1 : ℝ), (3 : ℝ), (6.5 : ℝ)), ((4 : ℝ), (-16 : ℝ), (64 : ℝ))] := by
    rw [pressureOutletClaim, if_neg]
    · simp only [List.map_cons, List.map_nil,
        if_pos outlet_ex_supersonic, if_neg outlet_ex_subsonic,
        outlet_ex_point]
    · simp only [List.any_cons, List.any_nil, Bool.or_eq_true,
        decide_eq_true_eq, outlet_ex_pres.1, outlet_ex_pres.2]
      simp
  rw [hA, hB]
  intro h
  have h2 := congrArg (fun x : Except Unit (List St) =>
    (x.toOption.getD []).getD 1 0) h
  norm_num [Except.toOption, List.getD] at h2

/-- Helper: a state of the constructed outlet shape has pressure `pB`. -/
theorem pres_outlet_form (γ pB rhoB velB : ℝ) (hρB : rhoB ≠ 0)
    (hγ1 : γ - 1 ≠ 0) :
    pres γ (rhoB, rhoB * velB, pB / (γ - 1) + 0.5 * (rhoB * velB ^ 2)) = pB := by
  simp only [pres, kinE, St.rho, St.mom, St.en]
  field_simp
  ring

/-- C9 as amended: the negative-pressure error is as claimed, but the
supersonic test is a whole-batch `np.any`: if any point is supersonic the
interior is extrapolated at every point, and only an all-subsonic batch
gets the pointwise construction; at subsonic points the constructed state
has the entropy-matched density and its pressure is exactly the
prescribed `pB`. -/
theorem C9_pressure_outlet_batch (γ pB : ℝ) (pts : List (St × ℝ)) (U : St)
    (n : ℝ) (hρ : 0 < U.rho) (hp : 0 < pres γ U) (hpB : 0 < pB)
    (hγ : γ ≠ 1) :
    pressureOutlet γ pB pts = pressureOutletSpec γ pB pts ∧
    (outletPoint γ pB U n).rho = U.rho * (pB / pres γ U) ^ (1 / γ : ℝ) ∧
    pres γ (outletPoint γ pB U n) = pB := by
  refine ⟨?_, rfl, ?_⟩
  · rw [pressureOutlet, pressureOutletSpec]
    by_cases h1 : ∃ q ∈ pts, pres γ q.1 < 0
    · have h1' : (pts.any fun q => decide (pres γ q.1 < 0)) = true := by
        rw [List.any_eq_true]
        obtain ⟨q, hq, hlt⟩ := h1
        exact ⟨q, hq, by simpa⟩
      rw [if_pos h1', if_pos h1]
    · have h1' : (pts.any fun q => decide (pres γ q.1 < 0)) = false := by
        rw [List.any_eq_false]
        intro q hq
        simp only [decide_eq_true_eq]
        exact fun hlt => h1 ⟨q, hq, hlt⟩
      rw [if_neg (by simp [h1']), if_neg h1]
      by_cases h2 : ∃ q ∈ pts, 1 ≤ vel q.1 * (q.2 / |q.2|) / snd γ q.1
      · have h2' : (pts.any fun q =>
            decide (1 ≤ vel q.1 * (q.2 / |q.2|) / snd γ q.1)) = true := by
          rw [List.any_eq_true]
          obtain ⟨q, hq, hle⟩ := h2
          exact ⟨q, hq, by simpa⟩
        rw [if_pos h2', if_pos h2]
      · have h2' : (pts.any fun q =>
            decide (1 ≤ vel q.1 * (q.2 / |q.2|) / snd γ q.1)) = false := by
          rw [List.any_eq_false]
          intro q hq
          simp only [decide_eq_true_eq]
          exact fun hle => h2 ⟨q, hq, hle⟩
        rw [if_neg (by simp [h2']), if_neg h2]
  · have hρB : U.rho * (pB / pres γ U) ^ (1 / γ : ℝ) ≠ 0 :=
      ne_of_gt (mul_pos hρ (Real.rpow_pos_of_pos (div_pos hpB hp) _))
    have hγ1 : γ - 1 ≠ 0 := sub_ne_zero.mpr hγ
    simp only [outletPoint, St.rho]
    exact pres_outlet_form γ pB _ _ hρB hγ1

/-- Witness for C9 at `gamma = 2`, `pB = 32`, the one-point subsonic batch
`U = (1, 0, 2)`, `n = 1`. -/
theorem C9_pressure_outlet_batch_witness :
    pressureOutlet 2 32 [(((1 : ℝ), (0 : ℝ), (2 : ℝ)), (1 : ℝ))] =
      pressureOutletSpec 2 32 [(((1 : ℝ), (0 : ℝ), (2 : ℝ)), (1 : ℝ))] ∧
    St.rho (outletPoint 2 32 ((1 : ℝ), (0 : ℝ), (2 : ℝ)) 1) =
      St.rho ((1 : ℝ), (0 : ℝ), (2 : ℝ)) *
        (32 / pres 2 ((1 : ℝ), (0 : ℝ), (2 : ℝ))) ^ ((1 : ℝ) / 2) ∧
    pres 2 (outletPoint 2 32 ((1 : ℝ), (0 : ℝ), (2 : ℝ)) 1) = 32 :=
  C9_pressure_outlet_batch 2 32 [(((1 : ℝ), (0 : ℝ), (2 : ℝ)), (1 : ℝ))]
    ((1 : ℝ), (0 : ℝ), (2 : ℝ)) 1 (by norm_num [St.rho])
    (by norm_num [pres, kinE, St.rho, St.mom, St.en]) (by norm_num)
    (by norm_num)

/-- Helper: reading a valid reference is unchanged by an alloc-then-write
to the fresh reference. -/
theorem read_alloc_write (h : Heap α) (iU : Nat) (hv : iU < h.next)
    (v w : α) :
    (((h.alloc v).1.write (h.alloc v).2 w)).read iU = h.read iU := by
  have hne : iU ≠ h.next := Nat.ne_of_lt hv
  simp only [Heap.alloc, Heap.write, Heap.read]
  simp [hne]

/-- Helper: reading a valid reference is unchanged by an alloc alone. -/
theorem read_alloc (h : Heap α) (iU : Nat) (hv : iU < h.next) (v : α) :
    (h.alloc v).1.read iU = h.read iU := by
  have hne : iU ≠ h.next := Nat.ne_of_lt hv
  simp only [Heap.alloc, Heap.read]
  simp [hne]

/-- C10: no Euler boundary condition mutates the interior array: after
each `get_boundary_state` heap program returns, the interior reference
`iU` reads exactly as before the call (the result is written into the
freshly allocated copy only). -/
theorem C10_bc_no_interior_mutation (γ R Twall pB : ℝ) (method : ℕ)
    (h4 : Heap (List St4)) (i4 : Nat) (ns4 : List Vec2)
    (h1 : Heap (List St)) (i1 : Nat) (ns1 : List ℝ)
    (hv4 : i4 < h4.next) (hv1 : i1 < h1.next) :
    (slipWallH h4 i4 ns4).1.read i4 = h4.read i4 ∧
    (slipWallRiemannH h4 i4 ns4).1.read i4 = h4.read i4 ∧
    (∀ h' iB, pressureOutletH γ pB h1 i1 ns1 = .ok (h', iB) →
      h'.read i1 = h1.read i1) ∧
    (∀ h' iB, adiabaticWallH γ R h1 i1 = .ok (h', iB) →
      h'.read i1 = h1.read i1) ∧
    (∀ h' iB, isothermalWallH γ R Twall method h1 i1 = .ok (h', iB) →
      h'.read i1 = h1.read i1) ∧
    (∀ h' iB, isothermalWallRiemannH γ R Twall h1 i1 = .ok (h', iB) →
      h'.read i1 = h1.read i1) := by
  refine ⟨read_alloc_write h4 i4 hv4 _ _, read_alloc_write h4 i4 hv4 _ _,
    ?_, ?_, ?_, ?_⟩
  · intro h' iB heq
    rw [pressureOutletH] at heq
    split_ifs at heq <;>
    · injection heq with heq'
      obtain ⟨rfl, -⟩ := Prod.mk.injEq .. ▸ heq'
      first
      | exact read_alloc h1 i1 hv1 _
      | exact read_alloc_write h1 i1 hv1 _ _
  · intro h' iB heq
    rw [adiabaticWallH] at heq
    split_ifs at heq
    injection heq with heq'
    obtain ⟨rfl, -⟩ := Prod.mk.injEq .. ▸ heq'
    exact read_alloc_write h1 i1 hv1 _ _
  · intro h' iB heq
    rw [isothermalWallH] at heq
    split_ifs at heq <;>
    · injection heq with heq'
      obtain ⟨rfl, -⟩ := Prod.mk.injEq .. ▸ heq'
      exact read_alloc_write h1 i1 hv1 _ _
  · intro h' iB heq
    rw [isothermalWallRiemannH] at heq
    split_ifs at heq
    injection heq with heq'
    obtain ⟨rfl, -⟩ := Prod.mk.injEq .. ▸ heq'
    exact read_alloc_write h1 i1 hv1 _ _

/-- Witness for C10 on concrete one-point heaps. -/
theorem C10_bc_no_interior_mutation_witness :
    (slipWallH ⟨fun _ => [], 1⟩ 0 []).1.read 0 =
      (⟨fun _ => [], 1⟩ : Heap (List St4)).read 0 ∧
    (slipWallRiemannH ⟨fun _ => [], 1⟩ 0 []).1.read 0 =
      (⟨fun _ => [], 1⟩ : Heap (List St4)).read 0 ∧
    (∀ h' iB, pressureOutletH 2 32 ⟨fun _ => [], 1⟩ 0 [] = .ok (h', iB) →
      h'.read 0 = (⟨fun _ => [], 1⟩ : Heap (List St)).read 0) ∧
    (∀ h' iB, adiabaticWallH 2 1 ⟨fun _ => [], 1⟩ 0 = .ok (h', iB) →
      h'.read 0 = (⟨fun _ => [], 1⟩ : Heap (List St)).read 0) ∧
    (∀ h' iB, isothermalWallH 2 1 1 0 ⟨fun _ => [], 1⟩ 0 = .ok (h', iB) →
      h'.read 0 = (⟨fun _ => [], 1⟩ : Heap (List St)).read 0) ∧
    (∀ h' iB, isothermalWallRiemannH 2 1 1 ⟨fun _ => [], 1⟩ 0 = .ok (h', iB) →
      h'.read 0 = (⟨fun _ => [], 1⟩ : Heap (List St)).read 0) :=
  C10_bc_no_interior_mutation 2 1 1 32 0 ⟨fun _ => [], 1⟩ 0 []
    ⟨fun _ => [], 1⟩ 0 [] (by norm_num) (by norm_num)

/-- C5: one Strang step is exactly the spec's three sub-steps (explicit
`dt/2` with source off/convective on, implicit `dt` with source
on/convective off, explicit `dt/2` with source off/convective on),
returning the last explicit sub-step's residual — provided the
convective-flux switch is on at entry (the code never sets it before the
first sub-step; it is `True` initially and restored by step 3 of every
previous step). -/
theorem C5_strang_structure {α : Type} (ctx : StepCtx α)
    (expl : ℝ → SimState α → SimState α × α) (dt : ℝ) (s : SimState α)
    (hconv : s.conv = true) :
    strangStep ctx expl dt s = strangSpecStep ctx expl dt s := by
  obtain ⟨src, cv, t, b, u, up, r, du, tr⟩ := s
  cases hconv
  rfl

/-- Witness for C5 with the forward-Euler explicit sub-stepper. -/
theorem C5_strang_structure_witness :
    strangStep ctxEx (feStep ctxEx) 1 sEx =
      strangSpecStep ctxEx (feStep ctxEx) 1 sEx :=
  C5_strang_structure ctxEx (feStep ctxEx) 1 sEx rfl

/-- C6 counterexample: with the residual operator of `ctxEx` (source
residual `10`, convective residual `20`) and forward Euler as the
explicit sub-stepper, the implicit sub-step of Simpler runs with balance
constant `20` — the residual evaluated with the source DISABLED — which
differs from the source residual `10` that C6 claims. -/
theorem C6_simpler_balance_counterexample :
    (simplerStep ctxEx (feStep ctxEx) 1 sEx).1.trace.get? 1 =
      some (Ev.impl true false (some 20) 1) ∧
    simplerClaimBalance ctxEx sEx ≠ (20 : ℝ) := by
  constructor
  · norm_num [simplerStep, doRes, implicitCall, feStep, ctxEx, sEx]
  · norm_num [simplerClaimBalance, ctxEx, sEx]

/-- C6 as amended: one Simpler step evaluates the residual at the
pre-step state with the source disabled and the balance constant cleared,
makes that (convective) residual available as the balance constant to the
implicit source sub-step, then reuses its negation for the subsequent
explicit convective half-step; the remaining sub-step order and switch
settings are Strang's with the first explicit half-step skipped. -/
theorem C6_simpler_balance (α : Type) [AddCommGroup α] [Module ℝ α]
    (ctx : StepCtx α) (expl : ℝ → SimState α → SimState α × α) (dt : ℝ)
    (s : SimState α) :
    simplerStep ctx expl dt s = simplerSpecStep ctx expl dt s := by
  obtain ⟨src, cv, t, b, u, up, r, du, tr⟩ := s
  simp only [simplerStep, simplerSpecStep, doRes, implicitCall, neg_neg]

/-- C7 counterexample: in the ADER step the predictor array `U_pred` is
updated and then read by the corrector residual with no limiter applied
to it in between, so the claimed ordering fails on the ADER trace. -/
theorem C7_limiter_ordering_counterexample :
    limiterOrdered (aderStep ctxEx 1 sEx).1.trace = false := rfl

/-- Helper: the event trace of one forward-Euler step. -/
theorem feStep_trace {α : Type} [AddCommGroup α] [Module ℝ α]
    (ctx : StepCtx α) (dt : ℝ) (s : SimState α) :
    (feStep ctx dt s).1.trace = s.trace ++
      [Ev.res s.source s.conv s.balance .U, Ev.upd .U, Ev.lim .U] := by
  simp [feStep, doRes]

/-- Helper: the event trace of one RK4 step. -/
theorem rk4Step_trace {α : Type} [AddCommGroup α] [Module ℝ α]
    (ctx : StepCtx α) (dt : ℝ) (s : SimState α) :
    (rk4Step ctx dt s).1.trace = s.trace ++
      [Ev.res s.source s.conv s.balance .U, Ev.upd .Utemp, Ev.lim .Utemp,
       Ev.res s.source s.conv s.balance .Utemp, Ev.upd .Utemp, Ev.lim .Utemp,
       Ev.res s.source s.conv s.balance .Utemp, Ev.upd .Utemp, Ev.lim .Utemp,
       Ev.res s.source s.conv s.balance .Utemp, Ev.upd .U, Ev.lim .U] := by
  simp [rk4Step, doRes]

/-- Helper: the event trace of one LSRK4 step. -/
theorem lsrk4Step_trace {α : Type} [AddCommGroup α] [Module ℝ α]
    (ctx : StepCtx α) (dt : ℝ) (s : SimState α) :
    (lsrk4Step ctx dt s).1.trace = s.trace ++
      [Ev.res s.source s.conv s.balance .U, Ev.upd .U, Ev.lim .U,
       Ev.res s.source s.conv s.balance .U, Ev.upd .U, Ev.lim .U,
       Ev.res s.source s.conv s.balance .U, Ev.upd .U, Ev.lim .U,
       Ev.res s.source s.conv s.balance .U, Ev.upd .U, Ev.lim .U,
       Ev.res s.source s.conv s.balance .U, Ev.upd .U, Ev.lim .U] := by
  simp [lsrk4Step, lsrk4Stage, doRes]

/-- Helper: the event trace of one SSPRK3 step. -/
theorem ssprk3Step_trace {α : Type} [AddCommGroup α] [Module ℝ α]
    (ctx : StepCtx α) (dt : ℝ) (s : SimState α) :
    (ssprk3Step ctx dt s).1.trace = s.trace ++
      [Ev.res s.source s.conv s.balance .U, Ev.upd .U, Ev.lim .U,
       Ev.res s.source s.conv s.balance .U, Ev.upd .U, Ev.lim .U,
       Ev.res s.source s.conv s.balance .U, Ev.upd .U, Ev.lim .U,
       Ev.res s.source s.conv s.balance .U, Ev.upd .U, Ev.lim .U,
       Ev.res s.source s.conv s.balance .U, Ev.upd .U, Ev.lim .U] := by
  simp [ssprk3Step, ssprk3Stage, doRes]

/-- Helper: the event trace of one ADER step. -/
theorem aderStep_trace {α : Type} [AddCommGroup α] [Module ℝ α]
    (ctx : StepCtx α) (dt : ℝ) (s : SimState α) :
    (aderStep ctx dt s).1.trace = s.trace ++
      [Ev.upd .Upred, Ev.res s.source s.conv s.balance .Upred,
       Ev.upd .U, Ev.lim .U] := by
  simp [aderStep, doRes]

/-- C7 as amended: in FE, RK4, LSRK4 and SSPRK3 every update of a
solution state array (full or stage state) is followed by a limiter
application on that state before it is next read by a residual evaluation
or the step returns; in ADER the same holds for every array EXCEPT the
space-time predictor `U_pred`, which the corrector residual reads
unlimited. -/
theorem C7_limiter_ordering {α : Type} [AddCommGroup α] [Module ℝ α]
    (ctx : StepCtx α) (dt : ℝ) (s : SimState α) (h0 : s.trace = []) :
    limiterOrdered (feStep ctx dt s).1.trace = true ∧
    limiterOrdered (rk4Step ctx dt s).1.trace = true ∧
    limiterOrdered (lsrk4Step ctx dt s).1.trace = true ∧
    limiterOrdered (ssprk3Step ctx dt s).1.trace = true ∧
    limiterOrderedExceptPred (aderStep ctx dt s).1.trace = true := by
  rw [feStep_trace, rk4Step_trace, lsrk4Step_trace, ssprk3Step_trace,
    aderStep_trace, h0]
  exact ⟨rfl, rfl, rfl, rfl, rfl⟩

/-- Witness for C7 on the concrete context and entry state. -/
theorem C7_limiter_ordering_witness :
    limiterOrdered (feStep ctxEx 1 sEx).1.trace = true ∧
    limiterOrdered (rk4Step ctxEx 1 sEx).1.trace = true ∧
    limiterOrdered (lsrk4Step ctxEx 1 sEx).1.trace = true ∧
    limiterOrdered (ssprk3Step ctxEx 1 sEx).1.trace = true ∧
    limiterOrderedExceptPred (aderStep ctxEx 1 sEx).1.trace = true :=
  C7_limiter_ordering ctxEx 1 sEx rfl

end

end Quail

